import Mathlib

/-!
Shallow embedding of `src/main.py`, a FastAPI questionnaire application
backed by a SQLite database with three tables: `users(id, name)`,
`questions(id, text)`, `answers(id, answer_text, user_id, question_id)`.

The database is modelled as three lists of rows in storage (rowid) order.
SQLite assigns a new rowid as (maximum existing rowid) + 1, starting from 1
on an empty table; `nextId` models this.  A form body is modelled as an
ordered list of key/value pairs (in this application the field keys of a
posted form are distinct).  A handler returns a pair of an optional
response and the committed database state; `none` as the response models an
unhandled Python exception (HTTP 500), in which case uncommitted session
work is discarded, so the returned database holds only what was committed
before the exception.
-/

namespace QuestionnaireApp

/-- Row of the `users` table (model `User`, src/main.py lines 22-26). -/
structure UserRow where
  id : Nat
  name : String
deriving Repr, DecidableEq

/-- Row of the `questions` table (model `Question`, src/main.py lines 28-32). -/
structure QuestionRow where
  id : Nat
  text : String
deriving Repr, DecidableEq

/-- Row of the `answers` table (model `Answer`, src/main.py lines 34-42).
The `question_id` is an `Int` because it is produced by the Python `int`
conversion in `submit_answers`, which can yield negative values. -/
structure AnswerRow where
  id : Nat
  answer_text : String
  user_id : Nat
  question_id : Int
deriving Repr, DecidableEq

/-- The persistent database: the three tables, each in storage order. -/
structure DB where
  users : List UserRow
  questions : List QuestionRow
  answers : List AnswerRow
deriving Repr, DecidableEq

/-- SQLite rowid assignment: one more than the largest existing id
(so 1 on an empty table). -/
def nextId (ids : List Nat) : Nat := ids.foldr max 0 + 1

/-- A posted form body: ordered key/value pairs. -/
abbrev FormData := List (String × String)

/-- Model of `form.get(key)`: the value of the first field with the given
key, or `none` when the field is absent. -/
def formGet (form : FormData) (key : String) : Option String :=
  (form.find? (fun kv => kv.1 = key)).map (fun kv => kv.2)

/-- Python truthiness of `form.get("name")`: `None` and the empty string
are falsy, every other string is truthy (models `if not name`). -/
def truthy : Option String → Bool
  | none => false
  | some s => s ≠ ""

/-- Value of a list of decimal digit characters, `none` when the list is
empty or holds a non-digit. -/
def digitsToNatAux (acc : Nat) : List Char → Option Nat
  | [] => some acc
  | c :: cs => if c.isDigit then digitsToNatAux (acc * 10 + (c.toNat - 48)) cs else none

/-- Strict decimal reading of a nonempty digit string. -/
def digitsToNat : List Char → Option Nat
  | [] => none
  | cs => digitsToNatAux 0 cs

/-- Model of the Python builtin `int(s)` on the character lists this
application feeds it (no surrounding whitespace, no underscores, since the
argument is a chunk produced by `key.split("_")`): an optional sign
followed by one or more decimal digits; `none` models the `ValueError`
exception. -/
def pyInt : List Char → Option Int
  | '-' :: cs => (digitsToNat cs).map (fun n => -(n : Int))
  | '+' :: cs => (digitsToNat cs).map (fun n => (n : Int))
  | cs => (digitsToNat cs).map (fun n => (n : Int))

/-- Model of the Python `s.split("_")`: split the character list at every
underscore, keeping empty chunks, so the result always has one more chunk
than there are underscores. -/
def splitUnderscore : List Char → List (List Char)
  | [] => [[]]
  | c :: cs =>
      if c = '_' then [] :: splitUnderscore cs
      else
        match splitUnderscore cs with
        | [] => [[c]]
        | h :: t => (c :: h) :: t

/-- Whether the second character list starts with the first. -/
def isPrefixOfChars : List Char → List Char → Bool
  | [], _ => true
  | _ :: _, [] => false
  | p :: ps, c :: cs => p = c && isPrefixOfChars ps cs

/-- Model of the Python `key.startswith(pre)`. -/
def strStartsWith (s pre : String) : Bool :=
  isPrefixOfChars pre.toList s.toList

/-- Model of `int(key.split("_")[1])` (src/main.py line 112): the chunk of
the key between the first and the second underscore, read as an integer;
`none` models the exception path (for the keys reaching this code the
index `[1]` always exists because the key starts with `question_`). -/
def parseQid (key : String) : Option Int :=
  match (splitUnderscore key.toList)[1]? with
  | none => none
  | some seg => pyInt seg

/-- A rendered HTTP response of one of the handlers.  Template responses
carry the data passed to the template. -/
inductive Response where
  | entryForm : Response
  | questionsPage : String → List QuestionRow → Response
  | thankYou : String → Response
  | resultsLoginForm : Option String → Response
  | resultsPage : List (String × List (String × String)) → Response
  | redirect : String → Nat → Response
deriving Repr, DecidableEq

/-- HTTP status of a response: `TemplateResponse` defaults to 200, the
redirect carries its explicit status code. -/
def Response.status : Response → Nat
  | .redirect _ s => s
  | _ => 200

/-- Find-or-create of a `User` by name, the block duplicated at
src/main.py lines 86-91 and 103-108: look the name up; if absent, insert a
fresh row and commit.  Returns the user together with the committed
database. -/
def findOrCreateUser (name : String) (db : DB) : UserRow × DB :=
  match db.users.find? (fun u => u.name = name) with
  | some u => (u, db)
  | none =>
      let u : UserRow := { id := nextId (db.users.map (fun x => x.id)), name := name }
      (u, { db with users := db.users ++ [u] })

/-- Handler `GET /` (src/main.py lines 80-82): render the entry form. -/
def read_root (db : DB) : Response × DB := (.entryForm, db)

/-- Handler `POST /questions` (src/main.py lines 84-94): find-or-create
the user by name, then render the questionnaire with all questions. -/
def get_questions (name : String) (db : DB) : Response × DB :=
  let ucd := findOrCreateUser name db
  (.questionsPage ucd.1.name ucd.2.questions, ucd.2)

/-- The `Answer` rows produced by the loop of src/main.py lines 110-114:
for every form field whose key starts with `question_`, an answer row for
the given user with the parsed question id and the field value, ids
assigned sequentially from `nid`; `none` when some key fails to parse
(the `int` call raises and nothing is committed). -/
def answersFor (uid : Nat) (nid : Nat) : FormData → Option (List AnswerRow)
  | [] => some []
  | (k, v) :: rest =>
      if strStartsWith k "question_" then
        match parseQid k with
        | none => none
        | some qid =>
            (answersFor uid (nid + 1) rest).map
              (fun l => { id := nid, answer_text := v, user_id := uid, question_id := qid } :: l)
      else answersFor uid nid rest

/-- Handler `POST /submit` (src/main.py lines 96-116): if the `name` field
is missing or falsy, redirect to `/` with status 302; otherwise
find-or-create the user (committed at once), build one answer row per
`question_` field and commit them all, rendering the thank-you page.  A
malformed `question_` key raises (`none` response); the user creation was
already committed but none of the answer rows are. -/
def submit_answers (form : FormData) (db : DB) : Option Response × DB :=
  if truthy (formGet form "name") then
    match formGet form "name" with
    | none => (some (.redirect "/" 302), db)
    | some name =>
        let ucd := findOrCreateUser name db
        match answersFor ucd.1.id (nextId (ucd.2.answers.map (fun a => a.id))) form with
        | none => (none, ucd.2)
        | some rows => (some (.thankYou name), { ucd.2 with answers := ucd.2.answers ++ rows })
  else (some (.redirect "/" 302), db)

/-- Handler `GET /results_login` (src/main.py lines 118-120). -/
def results_login (db : DB) : Response × DB := (.resultsLoginForm none, db)

/-- The join `a.question.text` for each answer of a user, in storage
order (src/main.py lines 130-133): pair each answer text with the text of
the question whose id it references; `none` models the `AttributeError`
raised when `a.question` is `None` because the referenced question row
does not exist. -/
def joinAnswers (questions : List QuestionRow) : List AnswerRow → Option (List (String × String))
  | [] => some []
  | a :: rest =>
      match questions.find? (fun q => (q.id : Int) = a.question_id) with
      | none => none
      | some q => (joinAnswers questions rest).map (fun l => (q.text, a.answer_text) :: l)

/-- The nested structure assembled for the results template
(src/main.py lines 127-134): for each user in order, the pair of the name
and the joined answers of that user. -/
def assembleResults (db : DB) : List UserRow → Option (List (String × List (String × String)))
  | [] => some []
  | u :: rest =>
      match joinAnswers db.questions (db.answers.filter (fun a => a.user_id = u.id)) with
      | none => none
      | some ans => (assembleResults db rest).map (fun l => (u.name, ans) :: l)

/-- Handler `POST /results` (src/main.py lines 122-136): a code different
from the literal `"072823"` re-renders the login form with an inline
error; the right code loads every user and assembles the joined results.
No branch writes to the database. -/
def view_results (code : String) (db : DB) : Option Response × DB :=
  if code ≠ "072823" then (some (.resultsLoginForm (some "Invalid code.")), db)
  else
    match assembleResults db db.users with
    | none => (none, db)
    | some data => (some (.resultsPage data), db)

/-- The fixed ordered list of ten prompts of src/main.py lines 62-73. -/
def questionsList : List String :=
  [ "What is your email address?",
    "What is your cell-phone number?",
    "What is your date of birth?",
    "What is your occupation?",
    "Who is your employer?",
    "How many years of investment experience do you have?",
    "What are your investment objectives? (e.g. Growth, Income, etc.)",
    "What is your Net Worth?",
    "Do you have any time limitation on your investment goals?",
    "Are you interested in life-insurance as well?" ]

/-- A primitive database operation performed by the seed routine. -/
inductive DbOp where
  | deleteAllQuestions : DbOp
  | addQuestion : String → DbOp
  | commit : DbOp
deriving Repr, DecidableEq

/-- The sequence of database operations executed by `preload_questions`
(src/main.py lines 56-76): delete all questions, commit, add the ten
prompts, commit. -/
def preloadScript : List DbOp :=
  DbOp.deleteAllQuestions :: DbOp.commit ::
    (questionsList.map DbOp.addQuestion ++ [DbOp.commit])

/-- Effect of one seed-routine operation on the database (the session and
the store coincide here because the routine runs single-threaded and ends
in a commit). -/
def applyOp (db : DB) : DbOp → DB
  | .deleteAllQuestions => { db with questions := [] }
  | .addQuestion t =>
      { db with questions :=
          db.questions ++ [{ id := nextId (db.questions.map (fun q => q.id)), text := t }] }
  | .commit => db

/-- Run a sequence of seed-routine operations in order. -/
def runOps (db : DB) : List DbOp → DB
  | [] => db
  | op :: ops => runOps (applyOp db op) ops

/-- Number of `commit` calls in a sequence of operations. -/
def countCommits (ops : List DbOp) : Nat :=
  ops.countP (fun op => match op with | .commit => true | _ => false)

/-- The seed routine `preload_questions` (src/main.py lines 56-76), run
once at process start (line 140). -/
def preload_questions (db : DB) : DB := runOps db preloadScript

/-- The questions table content the seed routine leaves behind: the ten
prompts in order with ids 1 to 10. -/
def seededQuestions : List QuestionRow :=
  [ { id := 1, text := "What is your email address?" },
    { id := 2, text := "What is your cell-phone number?" },
    { id := 3, text := "What is your date of birth?" },
    { id := 4, text := "What is your occupation?" },
    { id := 5, text := "Who is your employer?" },
    { id := 6, text := "How many years of investment experience do you have?" },
    { id := 7, text := "What are your investment objectives? (e.g. Growth, Income, etc.)" },
    { id := 8, text := "What is your Net Worth?" },
    { id := 9, text := "Do you have any time limitation on your investment goals?" },
    { id := 10, text := "Are you interested in life-insurance as well?" } ]

/-- Referential invariant of the database: every answer row references a
user row that exists, and user names are unique (the unique constraint on
`users.name`, src/main.py line 25). -/
def Inv (db : DB) : Prop :=
  (∀ a ∈ db.answers, ∃ u ∈ db.users, u.id = a.user_id) ∧
  (db.users.map (fun u => u.name)).Nodup

/-- One state transition of the application: any handler invocation, or
the seed routine. -/
inductive Step : DB → DB → Prop where
  | questions (n : String) (db : DB) : Step db (get_questions n db).2
  | submit (form : FormData) (db : DB) : Step db (submit_answers form db).2
  | results (code : String) (db : DB) : Step db (view_results code db).2
  | preload (db : DB) : Step db (preload_questions db)

/-- Empty database, the state right after table creation. -/
def dbEmpty : DB := { users := [], questions := [], answers := [] }

/-- Small populated database used to instantiate general theorems. -/
def dbSample : DB :=
  { users := [{ id := 1, name := "Alice" }],
    questions := [{ id := 1, text := "Q1" }, { id := 2, text := "Q2" }],
    answers := [{ id := 1, answer_text := "foo", user_id := 1, question_id := 1 }] }

/-! Helper lemmas about `findOrCreateUser`. -/

theorem findOrCreateUser_found (n : String) (db : DB) (u : UserRow)
    (h : db.users.find? (fun x => x.name = n) = some u) :
    findOrCreateUser n db = (u, db) := by
  unfold findOrCreateUser
  rw [h]

theorem findOrCreateUser_new (n : String) (db : DB)
    (h : db.users.find? (fun x => x.name = n) = none) :
    findOrCreateUser n db =
      ({ id := nextId (db.users.map (fun x => x.id)), name := n },
       { db with users :=
           db.users ++ [{ id := nextId (db.users.map (fun x => x.id)), name := n }] }) := by
  unfold findOrCreateUser
  rw [h]

theorem findOrCreateUser_fst_name (n : String) (db : DB) :
    (findOrCreateUser n db).1.name = n := by
  unfold findOrCreateUser
  cases h : db.users.find? (fun x => x.name = n) with
  | none => rfl
  | some u => simpa using List.find?_some h

theorem findOrCreateUser_questions (n : String) (db : DB) :
    (findOrCreateUser n db).2.questions = db.questions := by
  unfold findOrCreateUser
  cases db.users.find? (fun x => x.name = n) <;> rfl

theorem findOrCreateUser_answers (n : String) (db : DB) :
    (findOrCreateUser n db).2.answers = db.answers := by
  unfold findOrCreateUser
  cases db.users.find? (fun x => x.name = n) <;> rfl

theorem findOrCreateUser_mem (n : String) (db : DB) :
    (findOrCreateUser n db).1 ∈ (findOrCreateUser n db).2.users := by
  unfold findOrCreateUser
  cases h : db.users.find? (fun x => x.name = n) with
  | none => simp
  | some u => exact List.mem_of_find?_eq_some h

theorem findOrCreateUser_mono (n : String) (db : DB) :
    ∀ u ∈ db.users, u ∈ (findOrCreateUser n db).2.users := by
  intro u hu
  unfold findOrCreateUser
  cases db.users.find? (fun x => x.name = n) with
  | none => simp [hu]
  | some w => exact hu

theorem findOrCreateUser_nodup (n : String) (db : DB)
    (h : (db.users.map (fun u => u.name)).Nodup) :
    ((findOrCreateUser n db).2.users.map (fun u => u.name)).Nodup := by
  unfold findOrCreateUser
  cases hf : db.users.find? (fun x => x.name = n) with
  | some w => exact h
  | none =>
      have hnone : ∀ u ∈ db.users, u.name ≠ n := by
        intro u hu
        have := List.find?_eq_none.mp hf u hu
        simpa using this
      simp only [List.map_append, List.map_cons, List.map_nil, List.nodup_append]
      refine ⟨h, List.nodup_singleton _, ?_⟩
      intro s hs hs2
      simp only [List.mem_map] at hs
      obtain ⟨u, hu, rfl⟩ := hs
      simp only [List.mem_singleton] at hs2
      exact hnone u hu hs2

theorem findOrCreateUser_of_isSome (n : String) (db : DB)
    (h : (db.users.find? (fun x => x.name = n)).isSome) :
    (findOrCreateUser n db).2 = db := by
  obtain ⟨u, hu⟩ := Option.isSome_iff_exists.mp h
  rw [findOrCreateUser_found n db u hu]

/-! Helper lemmas unfolding the handlers. -/

theorem get_questions_state (n : String) (db : DB) :
    (get_questions n db).2 = (findOrCreateUser n db).2 := rfl

theorem submit_answers_eq (form : FormData) (db : DB) (name : String)
    (hname : formGet form "name" = some name) (hne : name ≠ "") :
    submit_answers form db =
      match answersFor (findOrCreateUser name db).1.id
          (nextId ((findOrCreateUser name db).2.answers.map (fun a => a.id))) form with
      | none => (none, (findOrCreateUser name db).2)
      | some rows =>
          (some (.thankYou name),
           { (findOrCreateUser name db).2 with
             answers := (findOrCreateUser name db).2.answers ++ rows }) := by
  unfold submit_answers
  rw [hname]
  have ht : truthy (some name) = true := by simp [truthy, hne]
  rw [ht]
  simp only [if_true]

theorem submit_answers_no_name (form : FormData) (db : DB)
    (h : truthy (formGet form "name") = false) :
    submit_answers form db = (some (.redirect "/" 302), db) := by
  unfold submit_answers
  rw [h]
  simp only [Bool.false_eq_true, if_false]

theorem view_results_state (code : String) (db : DB) :
    (view_results code db).2 = db := by
  unfold view_results
  by_cases h : code ≠ "072823"
  · rw [if_pos h]
  · rw [if_neg h]
    cases assembleResults db db.users <;> rfl

theorem preload_questions_questions (db : DB) :
    (preload_questions db).questions = seededQuestions := by
  simp [preload_questions, preloadScript, questionsList, runOps, applyOp, nextId, seededQuestions]

theorem preload_questions_users (db : DB) :
    (preload_questions db).users = db.users := by
  simp [preload_questions, preloadScript, questionsList, runOps, applyOp]

theorem preload_questions_answers (db : DB) :
    (preload_questions db).answers = db.answers := by
  simp [preload_questions, preloadScript, questionsList, runOps, applyOp]

/-! Helper lemmas about `answersFor`. -/

theorem answersFor_user (uid : Nat) (form : FormData) :
    ∀ nid rows, answersFor uid nid form = some rows → ∀ a ∈ rows, a.user_id = uid := by
  induction form with
  | nil =>
      intro nid rows h a ha
      simp only [answersFor, Option.some.injEq] at h
      subst h
      simp at ha
  | cons kv rest ih =>
      intro nid rows h a ha
      obtain ⟨k, v⟩ := kv
      by_cases hk : strStartsWith k "question_" = true
      · simp only [answersFor, hk, if_true] at h
        cases hq : parseQid k with
        | none => rw [hq] at h; simp at h
        | some qid =>
            rw [hq] at h
            cases hrec : answersFor uid (nid + 1) rest with
            | none => rw [hrec] at h; simp at h
            | some l =>
                rw [hrec] at h
                simp only [Option.map_some', Option.some.injEq] at h
                subst h
                rcases List.mem_cons.mp ha with h1 | h2
                · subst h1; rfl
                · exact ih (nid + 1) l hrec a h2
      · simp only [answersFor, hk, if_false] at h
        exact ih nid rows h a ha

theorem answersFor_spec (uid : Nat) (form : FormData)
    (hparse : ∀ kv ∈ form, strStartsWith kv.1 "question_" = true → (parseQid kv.1).isSome = true) :
    ∀ nid, ∃ rows, answersFor uid nid form = some rows ∧
      rows.length = form.countP (fun kv => strStartsWith kv.1 "question_") ∧
      rows.map (fun a => (a.question_id, a.answer_text)) =
        (form.filter (fun kv => strStartsWith kv.1 "question_")).map
          (fun kv => ((parseQid kv.1).getD 0, kv.2)) := by
  induction form with
  | nil => intro nid; exact ⟨[], rfl, rfl, rfl⟩
  | cons kv rest ih =>
      intro nid
      obtain ⟨k, v⟩ := kv
      have hrest : ∀ kv ∈ rest, strStartsWith kv.1 "question_" = true → (parseQid kv.1).isSome = true :=
        fun kv hkv => hparse kv (List.mem_cons_of_mem _ hkv)
      by_cases hk : strStartsWith k "question_" = true
      · have hsome : (parseQid k).isSome = true := hparse (k, v) (List.mem_cons_self _ _) hk
        obtain ⟨qid, hqid⟩ := Option.isSome_iff_exists.mp hsome
        obtain ⟨rows, h1, h2, h3⟩ := ih hrest (nid + 1)
        refine ⟨{ id := nid, answer_text := v, user_id := uid, question_id := qid } :: rows, ?_, ?_, ?_⟩
        · simp only [answersFor, hk, if_true, hqid, h1, Option.map_some']
        · simp [List.countP_cons, hk, h2]
        · rw [List.map_cons, h3, List.filter_cons_of_pos (by simpa using hk), List.map_cons]
          simp [hqid]
      · obtain ⟨rows, h1, h2, h3⟩ := ih hrest nid
        refine ⟨rows, ?_, ?_, ?_⟩
        · simp [answersFor, hk, h1]
        · simp [List.countP_cons, hk, h2]
        · rw [List.filter_cons_of_neg (by simpa using hk)]
          exact h3

/-! Helper lemmas about name counting. -/

theorem countP_name_eq_zero (l : List UserRow) (n : String)
    (h : l.find? (fun x => x.name = n) = none) :
    l.countP (fun x => x.name = n) = 0 := by
  rw [List.countP_eq_zero]
  intro a ha
  have := List.find?_eq_none.mp h a ha
  simpa using this

theorem countP_name_eq_one (l : List UserRow) (n : String) (u : UserRow)
    (hnd : (l.map (fun x => x.name)).Nodup) (hu : u ∈ l) (hn : u.name = n) :
    l.countP (fun x => x.name = n) = 1 := by
  induction l with
  | nil => simp at hu
  | cons x xs ih =>
      simp only [List.map_cons, List.nodup_cons] at hnd
      obtain ⟨hx, hxs⟩ := hnd
      rcases List.mem_cons.mp hu with h1 | h2
      · subst h1
        have hz : xs.countP (fun x => x.name = n) = 0 := by
          rw [List.countP_eq_zero]
          intro a ha
          simp only [decide_eq_true_eq]
          intro hna
          exact hx (by rw [hn, ← hna]; exact List.mem_map_of_mem _ ha)
        simp [List.countP_cons, hz, hn]
      · have hone := ih hxs h2
        have hxn : ¬ (x.name = n) := by
          intro hxn
          exact hx (by rw [hxn, ← hn]; exact List.mem_map_of_mem _ h2)
        simp [List.countP_cons, hone, hxn]

/-! Helper lemmas about the results assembly. -/

theorem find?_question_eq (qs : List QuestionRow) (q : QuestionRow)
    (hnd : (qs.map (fun x => x.id)).Nodup) (hq : q ∈ qs) :
    qs.find? (fun x => (x.id : Int) = (q.id : Int)) = some q := by
  induction qs with
  | nil => simp at hq
  | cons x xs ih =>
      simp only [List.map_cons, List.nodup_cons] at hnd
      obtain ⟨hx, hxs⟩ := hnd
      rcases List.mem_cons.mp hq with h1 | h2
      · subst h1
        rw [List.find?_cons_of_pos _ (by simp)]
      · have hne : ¬ ((x.id : Int) = (q.id : Int)) := by
          intro he
          have hxq : x.id = q.id := by exact_mod_cast he
          exact hx (by rw [hxq]; exact List.mem_map_of_mem _ h2)
        rw [List.find?_cons_of_neg _ (by simpa using hne)]
        exact ih hxs h2

theorem joinAnswers_mem (qs : List QuestionRow) (l : List AnswerRow) (res : List (String × String))
    (a : AnswerRow) (q : QuestionRow)
    (hj : joinAnswers qs l = some res) (ha : a ∈ l)
    (hfind : qs.find? (fun x => (x.id : Int) = a.question_id) = some q) :
    (q.text, a.answer_text) ∈ res := by
  induction l generalizing res with
  | nil => simp at ha
  | cons b rest ih =>
      simp only [joinAnswers] at hj
      cases hfb : qs.find? (fun x => (x.id : Int) = b.question_id) with
      | none => rw [hfb] at hj; simp at hj
      | some qb =>
          rw [hfb] at hj
          cases hrec : joinAnswers qs rest with
          | none => rw [hrec] at hj; simp at hj
          | some res2 =>
              rw [hrec] at hj
              simp only [Option.map_some', Option.some.injEq] at hj
              subst hj
              rcases List.mem_cons.mp ha with h1 | h2
              · subst h1
                rw [hfb] at hfind
                simp only [Option.some.injEq] at hfind
                subst hfind
                exact List.mem_cons_self _ _
              · exact List.mem_cons_of_mem _ (ih res2 hrec h2)

theorem assembleResults_length (db : DB) (us : List UserRow)
    (res : List (String × List (String × String)))
    (h : assembleResults db us = some res) : res.length = us.length := by
  induction us generalizing res with
  | nil =>
      simp only [assembleResults, Option.some.injEq] at h
      subst h; rfl
  | cons u rest ih =>
      simp only [assembleResults] at h
      cases hj : joinAnswers db.questions (db.answers.filter (fun a => a.user_id = u.id)) with
      | none => rw [hj] at h; simp at h
      | some ans =>
          rw [hj] at h
          cases hrec : assembleResults db rest with
          | none => rw [hrec] at h; simp at h
          | some res2 =>
              rw [hrec] at h
              simp only [Option.map_some', Option.some.injEq] at h
              subst h
              simp [ih res2 hrec]

theorem assembleResults_mem (db : DB) (us : List UserRow)
    (res : List (String × List (String × String))) (u : UserRow)
    (h : assembleResults db us = some res) (hu : u ∈ us) :
    ∃ e ∈ res, e.1 = u.name ∧
      joinAnswers db.questions (db.answers.filter (fun a => a.user_id = u.id)) = some e.2 := by
  induction us generalizing res with
  | nil => simp at hu
  | cons w rest ih =>
      simp only [assembleResults] at h
      cases hj : joinAnswers db.questions (db.answers.filter (fun a => a.user_id = w.id)) with
      | none => rw [hj] at h; simp at h
      | some ans =>
          rw [hj] at h
          cases hrec : assembleResults db rest with
          | none => rw [hrec] at h; simp at h
          | some res2 =>
              rw [hrec] at h
              simp only [Option.map_some', Option.some.injEq] at h
              subst h
              rcases List.mem_cons.mp hu with h1 | h2
              · subst h1
                exact ⟨(u.name, ans), List.mem_cons_self _ _, rfl, hj⟩
              · obtain ⟨e, he, he1, he2⟩ := ih res2 hrec h2
                exact ⟨e, List.mem_cons_of_mem _ he, he1, he2⟩

/-! Helper lemmas about record updates and the handler state space. -/

theorem db_with_answers_users (d : DB) (x : List AnswerRow) :
    ({ d with answers := x }).users = d.users := rfl

theorem db_with_answers_questions (d : DB) (x : List AnswerRow) :
    ({ d with answers := x }).questions = d.questions := rfl

theorem db_with_answers_answers (d : DB) (x : List AnswerRow) :
    ({ d with answers := x }).answers = x := rfl

theorem view_results_ok (db : DB) (data : List (String × List (String × String)))
    (h : assembleResults db db.users = some data) :
    view_results "072823" db = (some (.resultsPage data), db) := by
  unfold view_results
  rw [if_neg (by simp), h]

theorem view_results_data (db : DB) (data : List (String × List (String × String)))
    (h : (view_results "072823" db).1 = some (.resultsPage data)) :
    assembleResults db db.users = some data := by
  unfold view_results at h
  rw [if_neg (by simp)] at h
  cases hA : assembleResults db db.users with
  | none => rw [hA] at h; simp at h
  | some d2 =>
      rw [hA] at h
      simp only [Response.resultsPage.injEq, Option.some.injEq] at h
      rw [← h]

theorem submit_answers_state (form : FormData) (db : DB) :
    (submit_answers form db).2 = db ∨
    ∃ n, formGet form "name" = some n ∧ n ≠ "" ∧
      ((submit_answers form db).2 = (findOrCreateUser n db).2 ∨
       ∃ rows, answersFor (findOrCreateUser n db).1.id
           (nextId ((findOrCreateUser n db).2.answers.map (fun a => a.id))) form = some rows ∧
         (submit_answers form db).2 =
           { (findOrCreateUser n db).2 with
             answers := (findOrCreateUser n db).2.answers ++ rows }) := by
  by_cases ht : truthy (formGet form "name") = true
  · cases hg : formGet form "name" with
    | none => rw [hg] at ht; simp [truthy] at ht
    | some n =>
        have hne : n ≠ "" := by
          rw [hg] at ht
          simpa [truthy] using ht
        right
        refine ⟨n, rfl, hne, ?_⟩
        rw [submit_answers_eq form db n hg hne]
        cases hA : answersFor (findOrCreateUser n db).1.id
            (nextId ((findOrCreateUser n db).2.answers.map (fun a => a.id))) form with
        | none => left; rfl
        | some rows => right; exact ⟨rows, rfl, rfl⟩
  · left
    rw [submit_answers_no_name form db (by simpa using ht)]

theorem inv_findOrCreate (n : String) (db : DB) (h : Inv db) :
    Inv (findOrCreateUser n db).2 := by
  obtain ⟨h1, h2⟩ := h
  constructor
  · intro a ha
    rw [findOrCreateUser_answers] at ha
    obtain ⟨u, hu, hid⟩ := h1 a ha
    exact ⟨u, findOrCreateUser_mono n db u hu, hid⟩
  · exact findOrCreateUser_nodup n db h2

theorem inv_submit_full (n : String) (db : DB) (rows : List AnswerRow)
    (hrows : ∀ a ∈ rows, a.user_id = (findOrCreateUser n db).1.id)
    (h : Inv db) :
    Inv { (findOrCreateUser n db).2 with
          answers := (findOrCreateUser n db).2.answers ++ rows } := by
  obtain ⟨h1, h2⟩ := h
  constructor
  · intro a ha
    rw [db_with_answers_answers, List.mem_append] at ha
    rcases ha with ha | ha
    · rw [findOrCreateUser_answers] at ha
      obtain ⟨u, hu, hid⟩ := h1 a ha
      exact ⟨u, by rw [db_with_answers_users]; exact findOrCreateUser_mono n db u hu, hid⟩
    · exact ⟨(findOrCreateUser n db).1,
        by rw [db_with_answers_users]; exact findOrCreateUser_mem n db, (hrows a ha).symm⟩
  · rw [db_with_answers_users]
    exact findOrCreateUser_nodup n db h2

theorem step_users_mono (db db2 : DB) (h : Step db db2) : ∀ u ∈ db.users, u ∈ db2.users := by
  cases h with
  | questions n db =>
      rw [get_questions_state]
      exact findOrCreateUser_mono n db
  | submit form db =>
      rcases submit_answers_state form db with h | ⟨n, hg, hne, h | ⟨rows, hA, h⟩⟩
      · rw [h]; exact fun u hu => hu
      · rw [h]; exact findOrCreateUser_mono n db
      · rw [h, db_with_answers_users]; exact findOrCreateUser_mono n db
  | results code db =>
      rw [view_results_state]
      exact fun u hu => hu
  | preload db =>
      rw [preload_questions_users]
      exact fun u hu => hu

theorem step_preserves_inv (db db2 : DB) (h : Step db db2) (hI : Inv db) : Inv db2 := by
  cases h with
  | questions n db =>
      rw [get_questions_state]
      exact inv_findOrCreate n db hI
  | submit form db =>
      rcases submit_answers_state form db with h | ⟨n, hg, hne, h | ⟨rows, hA, h⟩⟩
      · rw [h]; exact hI
      · rw [h]; exact inv_findOrCreate n db hI
      · rw [h]; exact inv_submit_full n db rows (answersFor_user _ form _ rows hA) hI
  | results code db =>
      rw [view_results_state]
      exact hI
  | preload db =>
      obtain ⟨h1, h2⟩ := hI
      constructor
      · intro a ha
        rw [preload_questions_answers] at ha
        obtain ⟨u, hu, hid⟩ := h1 a ha
        exact ⟨u, by rw [preload_questions_users]; exact hu, hid⟩
      · rw [preload_questions_users]
        exact h2

/-! Claim theorems. -/

/-- C3, counterexample: the seed routine does not commit once.  Its
operation sequence performs two commits: one right after the delete
(src/main.py line 59) and one after the ten inserts (line 76). -/
theorem C3_counterexample : ¬ (countCommits preloadScript = 1) := by decide

/-- C3 (amended): the seed routine, run at process start, deletes all
Question rows and then inserts the fixed ordered list of ten prompts,
committing twice (once after the delete and once after the inserts);
after it runs, the questions table contains exactly those 10 questions in
the documented order with ids 1 to 10, regardless of the prior content of
the table, and the users and answers tables are untouched. -/
theorem C3_preload_reseeds (db : DB) :
    (preload_questions db).questions = seededQuestions ∧
    (preload_questions db).users = db.users ∧
    (preload_questions db).answers = db.answers ∧
    seededQuestions.map (fun q => q.text) = questionsList ∧
    seededQuestions.length = 10 ∧
    countCommits preloadScript = 2 :=
  ⟨preload_questions_questions db, preload_questions_users db,
   preload_questions_answers db, by decide, by decide, by decide⟩

/-- C5: for every POST /submit request whose form has no name field, the
handler returns a 302 redirect to / and the database (all three tables)
is unchanged. -/
theorem C5_submit_without_name (form : FormData) (db : DB)
    (h : formGet form "name" = none) :
    submit_answers form db = (some (.redirect "/" 302), db) ∧
    (Response.redirect "/" 302).status = 302 := by
  refine ⟨?_, rfl⟩
  apply submit_answers_no_name
  rw [h]
  rfl

/-- C5 witness at a concrete form and database. -/
theorem C5_submit_without_name_witness :
    formGet [("question_1", "x")] "name" = none ∧
    submit_answers [("question_1", "x")] dbSample =
      (some (.redirect "/" 302), dbSample) ∧
    (Response.redirect "/" 302).status = 302 :=
  ⟨by decide, (C5_submit_without_name [("question_1", "x")] dbSample (by decide)).1,
   (C5_submit_without_name [("question_1", "x")] dbSample (by decide)).2⟩

/-- C8: a POST /submit form holding a field whose key starts with
question_ but whose id portion is not numeric (question_abc here, and
the bare key question_ parses to none as well) makes the handler raise
an unhandled int-parse exception, modelled as the `none` response; no
answer rows from that request are committed. -/
theorem C8_malformed_key_crashes (db : DB) :
    (submit_answers [("name", "Ann"), ("question_abc", "hi")] db).1 = none ∧
    (submit_answers [("name", "Ann"), ("question_abc", "hi")] db).2.answers = db.answers ∧
    parseQid "question_abc" = none ∧
    parseQid "question_" = none := by
  have heq : submit_answers [("name", "Ann"), ("question_abc", "hi")] db
      = (none, (findOrCreateUser "Ann" db).2) := by
    rw [submit_answers_eq [("name", "Ann"), ("question_abc", "hi")] db "Ann" rfl (by decide)]
    rfl
  refine ⟨by rw [heq], ?_, rfl, rfl⟩
  rw [heq]
  exact findOrCreateUser_answers "Ann" db

/-- C9: POST /submit treats an empty-string name exactly like a missing
one, redirecting to / with no database mutation (indeed it returns the
very same result as a form with no name field at all), while POST
/questions with an empty-string name creates a User whose name is the
empty string. -/
theorem C9_empty_name_divergence (db : DB)
    (h : ∀ u ∈ db.users, u.name ≠ "") :
    submit_answers [("name", "")] db = (some (.redirect "/" 302), db) ∧
    submit_answers [("name", "")] db = submit_answers [] db ∧
    (get_questions "" db).2.users =
      db.users ++ [{ id := nextId (db.users.map (fun x => x.id)), name := "" }] := by
  have h1 : submit_answers [("name", "")] db = (some (.redirect "/" 302), db) :=
    submit_answers_no_name _ db rfl
  have h2 : submit_answers ([] : FormData) db = (some (.redirect "/" 302), db) :=
    submit_answers_no_name _ db rfl
  have hf : db.users.find? (fun x => x.name = "") = none := by
    rw [List.find?_eq_none]
    intro u hu
    simpa using h u hu
  refine ⟨h1, h1.trans h2.symm, ?_⟩
  rw [get_questions_state, findOrCreateUser_new _ db hf]

/-- C9 witness at a concrete database. -/
theorem C9_empty_name_divergence_witness :
    (∀ u ∈ dbSample.users, u.name ≠ "") ∧
    submit_answers [("name", "")] dbSample = (some (.redirect "/" 302), dbSample) ∧
    (get_questions "" dbSample).2.users =
      dbSample.users ++ [{ id := nextId (dbSample.users.map (fun x => x.id)), name := "" }] :=
  ⟨by decide, (C9_empty_name_divergence dbSample (by decide)).1,
   (C9_empty_name_divergence dbSample (by decide)).2.2⟩

/-- C10: a form key of the shape question_<a>_<b> with numeric <a>, here
question_5_extra, does not crash the submit handler: the id is parsed
from the segment between the first and second underscore only, so an
Answer row with question_id 5 is created even though the full suffix
5_extra is not a numeric id. -/
theorem C10_underscore_suffix (db : DB) (n v : String) (hne : n ≠ "") :
    parseQid "question_5_extra" = some 5 ∧
    submit_answers [("name", n), ("question_5_extra", v)] db =
      (some (.thankYou n),
       { (findOrCreateUser n db).2 with
         answers := db.answers ++
           [{ id := nextId (db.answers.map (fun a => a.id)), answer_text := v,
              user_id := (findOrCreateUser n db).1.id, question_id := 5 }] }) := by
  refine ⟨rfl, ?_⟩
  rw [submit_answers_eq [("name", n), ("question_5_extra", v)] db n rfl hne,
    findOrCreateUser_answers]
  rfl

/-- C10 witness at a concrete name, value and database. -/
theorem C10_underscore_suffix_witness :
    parseQid "question_5_extra" = some 5 ∧
    submit_answers [("name", "bob"), ("question_5_extra", "v")] dbEmpty =
      (some (.thankYou "bob"),
       { (findOrCreateUser "bob" dbEmpty).2 with
         answers := dbEmpty.answers ++
           [{ id := nextId (dbEmpty.answers.map (fun a => a.id)), answer_text := "v",
              user_id := (findOrCreateUser "bob" dbEmpty).1.id, question_id := 5 }] }) :=
  C10_underscore_suffix dbEmpty "bob" "v" (by decide)

/-- C1: POST /results with a code different from 072823 re-renders the
login form with the inline error at HTTP status 200, leaves the database
unchanged and reads nothing from it (the response is the same for every
database state); with the right code the handler writes nothing, and the
assembled data reads every user and, for each, every answer joined to the
text of its question. -/
theorem C1_results_gate (code : String) (db db2 : DB) (h : code ≠ "072823") :
    view_results code db = (some (.resultsLoginForm (some "Invalid code.")), db) ∧
    (view_results code db).1 = (view_results code db2).1 ∧
    (Response.resultsLoginForm (some "Invalid code.")).status = 200 ∧
    (view_results "072823" db).2 = db ∧
    (∀ data, (view_results "072823" db).1 = some (.resultsPage data) →
       data.length = db.users.length ∧
       ∀ u ∈ db.users, ∃ e ∈ data, e.1 = u.name ∧
         joinAnswers db.questions (db.answers.filter (fun a => a.user_id = u.id)) = some e.2) := by
  have hmis : ∀ d : DB, view_results code d =
      (some (.resultsLoginForm (some "Invalid code.")), d) := by
    intro d
    unfold view_results
    rw [if_pos h]
  refine ⟨hmis db, by rw [hmis db, hmis db2], rfl, view_results_state _ db, ?_⟩
  intro data hdata
  have hassem := view_results_data db data hdata
  exact ⟨assembleResults_length db db.users data hassem,
    fun u hu => assembleResults_mem db db.users data u hassem hu⟩

/-- C1 witness at a concrete wrong code, right code and database. -/
theorem C1_results_gate_witness :
    view_results "wrong" dbSample =
      (some (.resultsLoginForm (some "Invalid code.")), dbSample) ∧
    (Response.resultsLoginForm (some "Invalid code.")).status = 200 ∧
    (view_results "072823" dbSample).2 = dbSample ∧
    ([("Alice", [("Q1", "foo")])].length = dbSample.users.length ∧
     ∀ u ∈ dbSample.users, ∃ e ∈ [("Alice", [("Q1", "foo")])], e.1 = u.name ∧
       joinAnswers dbSample.questions
         (dbSample.answers.filter (fun a => a.user_id = u.id)) = some e.2) := by
  have hmain := C1_results_gate "wrong" dbSample dbEmpty (by decide)
  exact ⟨hmain.1, hmain.2.2.1, hmain.2.2.2.1,
    hmain.2.2.2.2 [("Alice", [("Q1", "foo")])] (by decide)⟩

/-- C2: for every successful POST /submit whose form carries a usable
name and whose question_ fields all parse, exactly k new Answer rows are
appended, where k is the number of form fields whose key starts with
question_; each new row carries the submitted user id, and the sequence
of (question id, answer text) pairs of the new rows is exactly the
parsed ids and verbatim values of those fields in order — an empty
string value also yields a row. -/
theorem C2_submit_inserts_k_answers (form : FormData) (db : DB) (n : String)
    (hname : formGet form "name" = some n) (hne : n ≠ "")
    (hparse : ∀ kv ∈ form, strStartsWith kv.1 "question_" = true →
      (parseQid kv.1).isSome = true) :
    ∃ rows,
      submit_answers form db =
        (some (.thankYou n),
         { (findOrCreateUser n db).2 with
           answers := (findOrCreateUser n db).2.answers ++ rows }) ∧
      rows.length = form.countP (fun kv => strStartsWith kv.1 "question_") ∧
      (∀ a ∈ rows, a.user_id = (findOrCreateUser n db).1.id) ∧
      rows.map (fun a => (a.question_id, a.answer_text)) =
        (form.filter (fun kv => strStartsWith kv.1 "question_")).map
          (fun kv => ((parseQid kv.1).getD 0, kv.2)) := by
  obtain ⟨rows, h1, h2, h3⟩ := answersFor_spec (findOrCreateUser n db).1.id form hparse
      (nextId ((findOrCreateUser n db).2.answers.map (fun a => a.id)))
  refine ⟨rows, ?_, h2, answersFor_user _ form _ rows h1, h3⟩
  rw [submit_answers_eq form db n hname hne, h1]

/-- C2 witness at a concrete form holding one nonempty and one empty
answer. -/
theorem C2_submit_inserts_k_answers_witness :
    formGet [("name", "Alice"), ("question_1", "foo"), ("question_2", "")] "name"
      = some "Alice" ∧
    ∃ rows,
      submit_answers [("name", "Alice"), ("question_1", "foo"), ("question_2", "")] dbEmpty =
        (some (.thankYou "Alice"),
         { (findOrCreateUser "Alice" dbEmpty).2 with
           answers := (findOrCreateUser "Alice" dbEmpty).2.answers ++ rows }) ∧
      rows.length = List.countP (fun kv => strStartsWith kv.1 "question_")
        [("name", "Alice"), ("question_1", "foo"), ("question_2", "")] ∧
      (∀ a ∈ rows, a.user_id = (findOrCreateUser "Alice" dbEmpty).1.id) ∧
      rows.map (fun a => (a.question_id, a.answer_text)) =
        (List.filter (fun kv => strStartsWith kv.1 "question_")
          [("name", "Alice"), ("question_1", "foo"), ("question_2", "")]).map
          (fun kv => ((parseQid kv.1).getD 0, kv.2)) :=
  ⟨rfl, C2_submit_inserts_k_answers
    [("name", "Alice"), ("question_1", "foo"), ("question_2", "")] dbEmpty "Alice"
    rfl (by decide) (by decide)⟩

/-- C4: submitting POST /questions twice in sequence with the same name n
leaves exactly one User row with name n: the first call creates the row
when it is absent (and leaves the table unchanged when it is present),
and the second call finds it and changes nothing at all. -/
theorem C4_find_or_create_idempotent (n : String) (db : DB)
    (hnd : (db.users.map (fun u => u.name)).Nodup) :
    (get_questions n (get_questions n db).2).2 = (get_questions n db).2 ∧
    ((get_questions n (get_questions n db).2).2.users.countP (fun u => u.name = n)) = 1 ∧
    ((db.users.find? (fun u => u.name = n)).isSome → (get_questions n db).2 = db) ∧
    ((db.users.find? (fun u => u.name = n)) = none →
      (get_questions n db).2.users =
        db.users ++ [{ id := nextId (db.users.map (fun u => u.id)), name := n }]) := by
  have hfind2 : ((findOrCreateUser n db).2.users.find? (fun u => u.name = n)).isSome := by
    rw [List.find?_isSome]
    exact ⟨(findOrCreateUser n db).1, findOrCreateUser_mem n db,
      by simp [findOrCreateUser_fst_name n db]⟩
  have hsecond : (get_questions n (get_questions n db).2).2 = (get_questions n db).2 := by
    rw [get_questions_state, get_questions_state, findOrCreateUser_of_isSome n _ hfind2]
  refine ⟨hsecond, ?_, ?_, ?_⟩
  · rw [hsecond, get_questions_state]
    cases hf : db.users.find? (fun u => u.name = n) with
    | some u =>
        rw [findOrCreateUser_found n db u hf]
        exact countP_name_eq_one db.users n u hnd (List.mem_of_find?_eq_some hf)
          (by simpa using List.find?_some hf)
    | none =>
        rw [findOrCreateUser_new n db hf]
        have hz := countP_name_eq_zero db.users n hf
        simp [List.countP_append, List.countP_cons, hz]
  · intro hs
    rw [get_questions_state]
    exact findOrCreateUser_of_isSome n db hs
  · intro hf
    rw [get_questions_state, findOrCreateUser_new n db hf]

/-- C4 witness at a concrete name and the empty database. -/
theorem C4_find_or_create_idempotent_witness :
    ((dbEmpty.users.map (fun u => u.name)).Nodup) ∧
    (get_questions "ann" (get_questions "ann" dbEmpty).2).2 = (get_questions "ann" dbEmpty).2 ∧
    ((get_questions "ann" (get_questions "ann" dbEmpty).2).2.users.countP
      (fun u => u.name = "ann")) = 1 :=
  ⟨by decide, (C4_find_or_create_idempotent "ann" dbEmpty (by decide)).1,
   (C4_find_or_create_idempotent "ann" dbEmpty (by decide)).2.1⟩

/-- C6: an answer text submitted through POST /submit for a question id
that references an existing Question comes back verbatim, with no
transformation, as the answer of that user for that question text in the data
assembled by a subsequent successful POST /results with the right code. -/
theorem C6_roundtrip (db : DB) (form : FormData) (n key text : String) (q : QuestionRow)
    (data : List (String × List (String × String)))
    (hname : formGet form "name" = some n) (hne : n ≠ "")
    (hkey : (key, text) ∈ form) (hstart : strStartsWith key "question_" = true)
    (hparse : parseQid key = some (q.id : Int))
    (hq : q ∈ db.questions) (hqnd : (db.questions.map (fun x => x.id)).Nodup)
    (hall : ∀ kv ∈ form, strStartsWith kv.1 "question_" = true →
      (parseQid kv.1).isSome = true)
    (hres : (view_results "072823" (submit_answers form db).2).1
      = some (.resultsPage data)) :
    ∃ e ∈ data, e.1 = n ∧ (q.text, text) ∈ e.2 := by
  obtain ⟨rows, h1, h2, h3⟩ := answersFor_spec (findOrCreateUser n db).1.id form hall
      (nextId ((findOrCreateUser n db).2.answers.map (fun a => a.id)))
  have hsub : (submit_answers form db).2 =
      { (findOrCreateUser n db).2 with
        answers := (findOrCreateUser n db).2.answers ++ rows } := by
    rw [submit_answers_eq form db n hname hne, h1]
  have hmem : ((q.id : Int), text) ∈ rows.map (fun a => (a.question_id, a.answer_text)) := by
    rw [h3]
    have hfmem : (key, text) ∈ form.filter (fun kv => strStartsWith kv.1 "question_") :=
      List.mem_filter.mpr ⟨hkey, by simpa using hstart⟩
    have himg := List.mem_map_of_mem (fun kv => ((parseQid kv.1).getD 0, kv.2)) hfmem
    simpa [hparse] using himg
  obtain ⟨a, ha, hav⟩ := List.mem_map.mp hmem
  have haq : a.question_id = (q.id : Int) := congrArg Prod.fst hav
  have hat : a.answer_text = text := congrArg Prod.snd hav
  have hauid : a.user_id = (findOrCreateUser n db).1.id :=
    answersFor_user _ form _ rows h1 a ha
  have hassem := view_results_data (submit_answers form db).2 data hres
  have huser : (findOrCreateUser n db).1 ∈ (submit_answers form db).2.users := by
    rw [hsub, db_with_answers_users]
    exact findOrCreateUser_mem n db
  obtain ⟨e, he, he1, he2⟩ := assembleResults_mem (submit_answers form db).2
    (submit_answers form db).2.users data (findOrCreateUser n db).1 hassem huser
  refine ⟨e, he, by rw [he1, findOrCreateUser_fst_name], ?_⟩
  have hamem : a ∈ (submit_answers form db).2.answers.filter
      (fun x => x.user_id = (findOrCreateUser n db).1.id) := by
    apply List.mem_filter.mpr
    refine ⟨?_, by simpa using hauid⟩
    rw [hsub, db_with_answers_answers]
    exact List.mem_append.mpr (Or.inr ha)
  have hqs : (submit_answers form db).2.questions = db.questions := by
    rw [hsub, db_with_answers_questions]
    exact findOrCreateUser_questions n db
  have hfind : (submit_answers form db).2.questions.find?
      (fun x => (x.id : Int) = a.question_id) = some q := by
    rw [hqs, haq]
    exact find?_question_eq db.questions q hqnd hq
  have hj := joinAnswers_mem (submit_answers form db).2.questions
    ((submit_answers form db).2.answers.filter
      (fun x => x.user_id = (findOrCreateUser n db).1.id))
    e.2 a q he2 hamem hfind
  rw [← hat]
  exact hj

/-- C6 witness: a concrete round trip through submit and results. -/
theorem C6_roundtrip_witness :
    ∃ e ∈ [("Alice", [("Q1", "foo")]), ("carol", [("Q1", "hello")])],
      e.1 = "carol" ∧ (("Q1" : String), ("hello" : String)) ∈ e.2 :=
  C6_roundtrip dbSample [("name", "carol"), ("question_1", "hello")] "carol"
    "question_1" "hello" { id := 1, text := "Q1" }
    [("Alice", [("Q1", "foo")]), ("carol", [("Q1", "hello")])]
    rfl (by decide) (by decide) (by decide) (by decide) (by decide) (by decide)
    (by decide) (by decide)

/-- C7: every handler step preserves the invariant that each Answer row
references an existing User row and that user names are unique; users are
never deleted by any step; and the question id of an Answer is not validated:
a question_ field whose parsed id (here 99) matches no existing Question
still creates an Answer row with that id for the submitted user. -/
theorem C7_referential_invariants :
    (∀ db db2, Step db db2 → Inv db → Inv db2) ∧
    (∀ db db2, Step db db2 → ∀ u ∈ db.users, u ∈ db2.users) ∧
    (∀ (db : DB) (n v : String), n ≠ "" →
      (∀ q ∈ db.questions, (q.id : Int) ≠ 99) →
      ∃ a ∈ (submit_answers [("name", n), ("question_99", v)] db).2.answers,
        a.question_id = 99 ∧ a.user_id = (findOrCreateUser n db).1.id) := by
  refine ⟨step_preserves_inv, step_users_mono, ?_⟩
  intro db n v hne _
  have hsub : submit_answers [("name", n), ("question_99", v)] db =
      (some (.thankYou n),
       { (findOrCreateUser n db).2 with
         answers := (findOrCreateUser n db).2.answers ++
           [{ id := nextId ((findOrCreateUser n db).2.answers.map (fun a => a.id)),
              answer_text := v, user_id := (findOrCreateUser n db).1.id,
              question_id := 99 }] }) := by
    rw [submit_answers_eq [("name", n), ("question_99", v)] db n rfl hne]
    rfl
  rw [hsub, db_with_answers_answers]
  exact ⟨_, List.mem_append.mpr (Or.inr (List.mem_singleton.mpr rfl)), rfl, rfl⟩

/-- C7 witness: a concrete step satisfying the invariant, a concrete user
kept across a step, and a concrete unvalidated answer insertion. -/
theorem C7_referential_invariants_witness :
    Inv (get_questions "ann" dbSample).2 ∧
    ({ id := 1, name := "Alice" } : UserRow) ∈ (get_questions "ann" dbSample).2.users ∧
    (∃ a ∈ (submit_answers [("name", "bob"), ("question_99", "hi")] dbEmpty).2.answers,
      a.question_id = 99 ∧ a.user_id = (findOrCreateUser "bob" dbEmpty).1.id) := by
  refine ⟨?_, ?_, ?_⟩
  · exact C7_referential_invariants.1 dbSample (get_questions "ann" dbSample).2
      (Step.questions "ann" dbSample) ⟨by decide, by decide⟩
  · exact C7_referential_invariants.2.1 dbSample (get_questions "ann" dbSample).2
      (Step.questions "ann" dbSample) { id := 1, name := "Alice" } (by decide)
  · exact C7_referential_invariants.2.2 dbEmpty "bob" "hi" (by decide) (by decide)

end QuestionnaireApp
